import Mathlib

/-!
Verification development for the place-discovery pipeline of
`src/App.js` in the smart-nearby-places-recommender repository.

The pipeline is shallowly embedded: JavaScript numbers carried by the
data records are modelled as rationals, the haversine distance (which
uses transcendental functions) over the reals, optional values as
`Option`, and JavaScript truthiness explicitly (`undefined`, `0` and
`""` are falsy).  The `Math.random()` source is modelled as a stream of
rational draws in `[0, 1)` threaded through the normalizer exactly where
the source calls it.
-/

namespace SmartPlaces

/-- JS truthiness of an optional number: `undefined` and `0` are falsy. -/
def numTruthy : Option ℚ → Bool
  | none => false
  | some x => x != 0

/-- JS truthiness of an optional string: `undefined` and `""` are falsy. -/
def strTruthy : Option String → Bool
  | none => false
  | some s => s != ""

/-- JS `a || b` on optional numbers: `a` if truthy, otherwise `b`. -/
def jsOrNum (a b : Option ℚ) : Option ℚ := if numTruthy a then a else b

/-- JS `a || b` on optional strings: `a` if truthy, otherwise `b`. -/
def jsOrStr (a b : Option String) : Option String := if strTruthy a then a else b

/-- JS `s || d` where the fallback `d` is a plain string. -/
def strOrDefault (a : Option String) (d : String) : String :=
  if strTruthy a then a.getD "" else d

/-- A latitude/longitude pair, as in the `{ lat, lng }` objects of the source. -/
structure Coord where
  lat : ℚ
  lng : ℚ
deriving DecidableEq

/-- The tag map of a raw Overpass element, restricted to the keys the source
reads (`name`, `amenity`, `cuisine`, the `addr:*` keys, phone and website). -/
structure Tags where
  name : Option String
  amenity : Option String
  cuisine : Option String
  addrStreet : Option String
  addrHousenumber : Option String
  addrCity : Option String
  phone : Option String
  contactPhone : Option String
  website : Option String
  contactWebsite : Option String
deriving DecidableEq

/-- The nested `center` coordinate a way element may carry. -/
structure Center where
  lat : Option ℚ
  lon : Option ℚ
deriving DecidableEq

/-- A raw element of the Overpass response (untrusted: every field that the
endpoint might omit is optional). -/
structure RawElement where
  id : Int
  lat : Option ℚ
  lon : Option ℚ
  center : Option Center
  tags : Option Tags
deriving DecidableEq

/-- The `expensiveCuisines` list of the source. -/
def expensiveCuisines : List String := ["french", "japanese", "italian", "sushi"]

/-- Whether the cuisine tag is present and in `expensiveCuisines`
(`expensiveCuisines.includes(element.tags.cuisine)`). -/
def cuisineIsExpensive : Option String → Bool
  | some s => expensiveCuisines.contains s
  | none => false

/-- Price-tier derivation, transcribing the assignment sequence on
`priceLevel` in `searchPlacesOverpass` (App.js lines 131-137): start at 2,
set 1 on amenity `fast_food`, then 4 on cuisine `fine_dining`, then for a
restaurant with a (truthy) cuisine set 3 or 2 by the expensive-cuisine list. -/
def priceLevelOf (amenity cuisine : Option String) : Nat :=
  let p1 : Nat := 2
  let p2 := if amenity = some "fast_food" then 1 else p1
  let p3 := if cuisine = some "fine_dining" then 4 else p2
  if amenity = some "restaurant" ∧ strTruthy cuisine = true then
    if cuisineIsExpensive cuisine then 3 else 2
  else p3

/-- Open-now derivation from the amenity tag and the local hour
(App.js lines 139-147).  Note that the `bar` branch of the source tests
`hour >= 16 && hour < 2`, a conjunction. -/
def openNowOf (amenity : Option String) (hour : Nat) : Bool :=
  if amenity = some "cafe" then decide (7 ≤ hour ∧ hour < 22)
  else if amenity = some "restaurant" then
    decide ((11 ≤ hour ∧ hour < 15) ∨ (17 ≤ hour ∧ hour < 23))
  else if amenity = some "bar" then decide (16 ≤ hour ∧ hour < 2)
  else true

/-- JS `parseFloat(x.toFixed(1))` for nonnegative `x`: round to the nearest
tenth, ties rounded up (away from zero for positive values). -/
def roundToTenth (x : ℚ) : ℚ := (⌊x * 10 + 1 / 2⌋ : ℚ) / 10

/-- The synthesized rating `parseFloat((3.5 + u * 1.5).toFixed(1))`, where
`u` stands for the `Math.random()` draw. -/
def ratingOf (u : ℚ) : ℚ := roundToTenth (3.5 + u * 1.5)

/-- The synthesized review count `Math.floor(v * 500) + 20`, where `v`
stands for the `Math.random()` draw. -/
def reviewCountOf (v : ℚ) : ℤ := ⌊v * 500⌋ + 20

/-- Address composition (App.js lines 152-154): house number (or empty),
space, street when a street tag is truthy; else city; else the literal
unavailable marker. -/
def addressOf (t : Tags) : String :=
  if strTruthy t.addrStreet then
    strOrDefault t.addrHousenumber "" ++ " " ++ t.addrStreet.getD ""
  else strOrDefault t.addrCity "Address not available"

/-- C1: the claim asserts that an element tagged both amenity `fast_food`
and cuisine `fine_dining` derives price tier 1; on the code the
`fine_dining` assignment runs after the `fast_food` one, so the derived
tier is 4, refuting the claim at this concrete input. -/
theorem C1_fastfood_fineDining_counterexample :
    priceLevelOf (some "fast_food") (some "fine_dining") = 4 ∧
      priceLevelOf (some "fast_food") (some "fine_dining") ≠ 1 := by
  constructor <;> decide

/-- C1 (amended): price-tier derivation is a pure function of the amenity
and cuisine tags with precedence: the restaurant-with-truthy-cuisine rule
overrides everything, then cuisine `fine_dining` (4), then amenity
`fast_food` (1), else the default 2; in particular amenity `fast_food`
with cuisine `fine_dining` derives 4, since `fine_dining` is checked after
`fast_food`. -/
theorem C1_priceTier_precedence :
    (∀ amenity cuisine : Option String,
      priceLevelOf amenity cuisine =
        if amenity = some "restaurant" ∧ strTruthy cuisine = true then
          (if cuisineIsExpensive cuisine then 3 else 2)
        else if cuisine = some "fine_dining" then 4
        else if amenity = some "fast_food" then 1
        else 2) ∧
    priceLevelOf (some "fast_food") (some "fine_dining") = 4 := by
  refine ⟨fun amenity cuisine => ?_, by decide⟩
  unfold priceLevelOf
  split_ifs <;> rfl

/-- C4: the source derives `openNow` for a bar with the conjunction
`hour >= 16 && hour < 2`, which no hour satisfies, so a bar is reported
closed at every hour — contradicting the claimed wrap-around interval
(open iff `h ≥ 16` or `h < 2`), e.g. at hour 20. -/
theorem C4_bar_always_closed (hour : Nat) : openNowOf (some "bar") hour = false := by
  unfold openNowOf
  rw [if_neg (by decide), if_neg (by decide), if_pos rfl]
  simp only [decide_eq_false_iff_not]
  omega

/-- C6 counterexample: the draw `u = 63/64` is a possible `Math.random()`
value, and the synthesized rating rounds `3.5 + u * 1.5 = 4.9765625` up to
exactly `5.0`, refuting the claimed strict upper bound `rating < 5`. -/
theorem C6_rating_reaches_five :
    ((0 : ℚ) ≤ 63 / 64 ∧ (63 / 64 : ℚ) < 1) ∧ ¬ ratingOf (63 / 64) < 5 := by
  constructor
  · constructor <;> norm_num
  · have h5 : ratingOf (63 / 64) = 5 := by
      unfold ratingOf roundToTenth
      norm_num
    rw [h5]
    norm_num

/-- C6 (amended): for every draw of the random source, the synthesized
rating lies in the closed interval `[3.5, 5.0]` (rounding to one decimal
can reach exactly `5.0`), and the synthesized review count is an integer
in `[20, 520)`. -/
theorem C6_synthesized_ranges (u v : ℚ) (hu0 : 0 ≤ u) (hu1 : u < 1)
    (hv0 : 0 ≤ v) (hv1 : v < 1) :
    ((3.5 : ℚ) ≤ ratingOf u ∧ ratingOf u ≤ 5) ∧
      (20 ≤ reviewCountOf v ∧ reviewCountOf v < 520) := by
  refine ⟨⟨?_, ?_⟩, ?_, ?_⟩
  · have h35 : (35 : ℤ) ≤ ⌊(3.5 + u * 1.5) * 10 + 1 / 2⌋ := by
      rw [Int.le_floor]
      push_cast
      nlinarith
    unfold ratingOf roundToTenth
    have : (35 : ℚ) ≤ (⌊(3.5 + u * 1.5) * 10 + 1 / 2⌋ : ℚ) := by exact_mod_cast h35
    linarith
  · have h50 : ⌊(3.5 + u * 1.5) * 10 + 1 / 2⌋ < 51 := by
      rw [Int.floor_lt]
      push_cast
      nlinarith
    unfold ratingOf roundToTenth
    have : (⌊(3.5 + u * 1.5) * 10 + 1 / 2⌋ : ℚ) ≤ 50 := by exact_mod_cast Int.lt_add_one_iff.mp h50
    linarith
  · have h0 : (0 : ℤ) ≤ ⌊v * 500⌋ := by
      rw [Int.le_floor]
      push_cast
      nlinarith
    unfold reviewCountOf
    omega
  · have h500 : ⌊v * 500⌋ < 500 := by
      rw [Int.floor_lt]
      push_cast
      nlinarith
    unfold reviewCountOf
    omega

/-- C6 witness: the amended range bounds instantiated at the draw `1/2`. -/
theorem C6_synthesized_ranges_witness :
    ((3.5 : ℚ) ≤ ratingOf (1 / 2) ∧ ratingOf (1 / 2) ≤ 5) ∧
      (20 ≤ reviewCountOf (1 / 2) ∧ reviewCountOf (1 / 2) < 520) :=
  C6_synthesized_ranges (1 / 2) (1 / 2) (by norm_num) (by norm_num)
    (by norm_num) (by norm_num)

/-- The two-argument arctangent `Math.atan2(y, x)` used by the source,
defined by the standard case split on the signs of `x` and `y`. -/
noncomputable def atan2 (y x : ℝ) : ℝ :=
  if 0 < x then Real.arctan (y / x)
  else if x < 0 then
    (if 0 ≤ y then Real.arctan (y / x) + Real.pi else Real.arctan (y / x) - Real.pi)
  else if 0 < y then Real.pi / 2
  else if y < 0 then -(Real.pi / 2)
  else 0

/-- The haversine distance `calculateDistance` of the source
(App.js lines 64-73), in kilometres, with Earth radius 6371. -/
noncomputable def calculateDistance (lat1 lon1 lat2 lon2 : ℝ) : ℝ :=
  let R : ℝ := 6371
  let dLat := (lat2 - lat1) * Real.pi / 180
  let dLon := (lon2 - lon1) * Real.pi / 180
  let a := Real.sin (dLat / 2) * Real.sin (dLat / 2) +
    Real.cos (lat1 * Real.pi / 180) * Real.cos (lat2 * Real.pi / 180) *
      Real.sin (dLon / 2) * Real.sin (dLon / 2)
  let c := 2 * atan2 (Real.sqrt a) (Real.sqrt (1 - a))
  R * c

/-- C7: the haversine distance vanishes on identical coordinates, is
symmetric in its two coordinate arguments, and the distance from
`(0, 0)` to `(0, 1°)` is within `0.5%` of `111.19` kilometres. -/
theorem C7_haversine_properties :
    (∀ lat lon : ℝ, calculateDistance lat lon lat lon = 0) ∧
    (∀ lat1 lon1 lat2 lon2 : ℝ,
      calculateDistance lat1 lon1 lat2 lon2 = calculateDistance lat2 lon2 lat1 lon1) ∧
    |calculateDistance 0 0 0 1 - 111.19| ≤ 0.005 * 111.19 := by
  refine ⟨?_, ?_, ?_⟩
  · intro lat lon
    simp [calculateDistance, atan2, Real.sqrt_one]
  · intro lat1 lon1 lat2 lon2
    simp only [calculateDistance]
    have h1 : Real.sin ((lat2 - lat1) * Real.pi / 180 / 2) *
          Real.sin ((lat2 - lat1) * Real.pi / 180 / 2) =
        Real.sin ((lat1 - lat2) * Real.pi / 180 / 2) *
          Real.sin ((lat1 - lat2) * Real.pi / 180 / 2) := by
      rw [show (lat2 - lat1) * Real.pi / 180 / 2 = -((lat1 - lat2) * Real.pi / 180 / 2) by ring,
        Real.sin_neg]
      ring
    have h2 : Real.sin ((lon2 - lon1) * Real.pi / 180 / 2) *
          Real.sin ((lon2 - lon1) * Real.pi / 180 / 2) =
        Real.sin ((lon1 - lon2) * Real.pi / 180 / 2) *
          Real.sin ((lon1 - lon2) * Real.pi / 180 / 2) := by
      rw [show (lon2 - lon1) * Real.pi / 180 / 2 = -((lon1 - lon2) * Real.pi / 180 / 2) by ring,
        Real.sin_neg]
      ring
    rw [show Real.cos (lat1 * Real.pi / 180) * Real.cos (lat2 * Real.pi / 180) *
          Real.sin ((lon2 - lon1) * Real.pi / 180 / 2) * Real.sin ((lon2 - lon1) * Real.pi / 180 / 2)
        = Real.cos (lat2 * Real.pi / 180) * Real.cos (lat1 * Real.pi / 180) *
          (Real.sin ((lon2 - lon1) * Real.pi / 180 / 2) *
            Real.sin ((lon2 - lon1) * Real.pi / 180 / 2)) by ring, h1, h2]
    ring_nf
  · have hpi := Real.pi_pos
    have hsinpos : 0 ≤ Real.sin (Real.pi / 180 / 2) :=
      Real.sin_nonneg_of_nonneg_of_le_pi (by linarith) (by linarith)
    have hcospos : 0 < Real.cos (Real.pi / 180 / 2) :=
      Real.cos_pos_of_mem_Ioo ⟨by linarith, by linarith⟩
    have hs : Real.sqrt (Real.sin (Real.pi / 180 / 2) * Real.sin (Real.pi / 180 / 2)) =
        Real.sin (Real.pi / 180 / 2) := Real.sqrt_mul_self hsinpos
    have hc : Real.sqrt (1 - Real.sin (Real.pi / 180 / 2) * Real.sin (Real.pi / 180 / 2)) =
        Real.cos (Real.pi / 180 / 2) := by
      rw [show (1 : ℝ) - Real.sin (Real.pi / 180 / 2) * Real.sin (Real.pi / 180 / 2) =
          Real.cos (Real.pi / 180 / 2) * Real.cos (Real.pi / 180 / 2) by
        nlinarith [Real.sin_sq_add_cos_sq (Real.pi / 180 / 2)]]
      exact Real.sqrt_mul_self (le_of_lt hcospos)
    have hatan : atan2 (Real.sin (Real.pi / 180 / 2)) (Real.cos (Real.pi / 180 / 2)) =
        Real.pi / 180 / 2 := by
      unfold atan2
      rw [if_pos hcospos, ← Real.tan_eq_sin_div_cos,
        Real.arctan_tan (by linarith) (by linarith)]
    have hval : calculateDistance 0 0 0 1 = 6371 * (Real.pi / 180) := by
      simp only [calculateDistance]
      norm_num [Real.sin_zero, Real.cos_zero]
      rw [hs, hc, hatan]
      ring
    rw [hval, abs_le]
    constructor <;> nlinarith [Real.pi_gt_d6, Real.pi_lt_d6]

/-- One entry of the `MOOD_PRESETS` object literal. -/
structure MoodConfig where
  label : String
  tags : List String
  keywords : String
  description : String
deriving DecidableEq

/-- The static mood registry `MOOD_PRESETS` (App.js lines 16-41), as a
lookup from the mood key; an unregistered key yields `none` (JS property
access would yield `undefined`). -/
def MOOD_PRESETS : String → Option MoodConfig := fun key =>
  if key = "work" then
    some ⟨"💼 Work", ["cafe", "coworking_space", "library"], "cafe coworking wifi",
      "Quiet places with good wifi"⟩
  else if key = "date" then
    some ⟨"❤️ Date", ["restaurant", "cafe", "bar"], "restaurant romantic dining",
      "Romantic spots with ambiance"⟩
  else if key = "quickBite" then
    some ⟨"🍔 Quick Bite", ["fast_food", "restaurant", "cafe"], "fast food quick restaurant",
      "Fast and convenient eats"⟩
  else if key = "budget" then
    some ⟨"💰 Budget", ["fast_food", "cafe", "restaurant"], "cheap affordable budget restaurant",
      "Affordable options"⟩
  else none

/-- The per-tag sub-query template of App.js lines 87-92: one `node` and
one `way` selector around the origin, with the radius interpolated. -/
def tagSubQuery (radius : Int) (lat lng : ℚ) (tag : String) : String :=
  s!"\n          node[\"amenity\"=\"{tag}\"](around:{radius},{lat},{lng});\n          way[\"amenity\"=\"{tag}\"](around:{radius},{lat},{lng});\n        "

/-- The full Overpass query of App.js lines 94-102: the sub-queries of all
mood tags joined and wrapped in the union template.  No validation is
applied to the radius. -/
def overpassQueryFor (tags : List String) (radius : Int) (lat lng : ℚ) : String :=
  let queries := String.join (tags.map (tagSubQuery radius lat lng))
  s!"\n        [out:json][timeout:25];\n        (\n          {queries}\n        );\n        out body;\n        >;\n        out skel qt;\n      "

/-- Query construction for a mood key (App.js lines 84-102): look up the
preset and build the query text from its tags; the radius value is used
as given. -/
def buildQuery (mood : String) (radius : Int) (lat lng : ℚ) : Option String :=
  (MOOD_PRESETS mood).map fun cfg => overpassQueryFor cfg.tags radius lat lng

/-- C3 counterexample: the claim says query construction rejects
`radiusMeters = 400`, but the code has no radius validation at all —
building the work-mood query at radius 400 succeeds. -/
theorem C3_radius_400_accepted : (buildQuery "work" 400 0 0).isSome = true := rfl

/-- C3 (amended): query construction does not validate the radius: for
every registered mood and every radius value — including 400, 6000 and
2000 — the query is built, with the radius passed through into the query
text; the `[500, 5000]` range is enforced only by the UI slider bounds. -/
theorem C3_radius_passthrough (mood : String) (cfg : MoodConfig)
    (h : MOOD_PRESETS mood = some cfg) (radius : Int) (lat lng : ℚ) :
    buildQuery mood radius lat lng = some (overpassQueryFor cfg.tags radius lat lng) ∧
      (buildQuery "work" 400 0 0).isSome = true ∧
      (buildQuery "work" 6000 0 0).isSome = true ∧
      (buildQuery "work" 2000 0 0).isSome = true := by
  refine ⟨?_, rfl, rfl, rfl⟩
  unfold buildQuery
  rw [h]
  rfl

/-- C3 witness: the pass-through equation instantiated for the work mood
at radius 400 and origin `(0, 0)`. -/
theorem C3_radius_passthrough_witness :
    buildQuery "work" 400 0 0 =
      some (overpassQueryFor ["cafe", "coworking_space", "library"] 400 0 0) :=
  (C3_radius_passthrough "work"
    ⟨"💼 Work", ["cafe", "coworking_space", "library"], "cafe coworking wifi",
      "Quiet places with good wifi"⟩ rfl 400 0 0).1

/-- The canonical place record built by the normalizer (the object
literal of App.js lines 149-166), field for field. -/
structure Place where
  id : Int
  name : String
  address : String
  rating : ℚ
  userRatingsTotal : ℤ
  priceLevel : Nat
  distance : ℝ
  openNow : Bool
  location : Coord
  amenity : Option String
  cuisine : String
  phone : Option String
  website : Option String
  osmId : Int

/-- The name-presence filter `element.tags && element.tags.name`
(App.js line 119): the tag map must exist and the name tag be truthy. -/
def hasNameTag (e : RawElement) : Bool :=
  match e.tags with
  | none => false
  | some t => strTruthy t.name

/-- Per-element normalization (App.js lines 120-167): resolve each
coordinate component by JS `||` — so a direct component that is `0` falls
through to the `center` one — and discard the element when either
resolved component is falsy; otherwise build the place record.  The
parameters `u` and `v` are the two `Math.random()` draws used for the
rating and the review count. -/
noncomputable def processElement (origin : Coord) (hour : Nat) (u v : ℚ)
    (e : RawElement) : Option Place :=
  match e.tags with
  | none => none
  | some t =>
    let lat := jsOrNum e.lat (e.center.bind Center.lat)
    let lon := jsOrNum e.lon (e.center.bind Center.lon)
    if numTruthy lat && numTruthy lon then
      let la := lat.getD 0
      let lo := lon.getD 0
      some ⟨e.id, t.name.getD "", addressOf t, ratingOf u, reviewCountOf v,
        priceLevelOf t.amenity t.cuisine,
        calculateDistance origin.lat origin.lng la lo,
        openNowOf t.amenity hour, ⟨la, lo⟩, t.amenity,
        strOrDefault t.cuisine "Various",
        jsOrStr t.phone t.contactPhone, jsOrStr t.website t.contactWebsite, e.id⟩
    else none

/-- The `.map` pass over the name-filtered elements, threading the
`Math.random()` stream `rng` by its read position `k`: an element that
fails coordinate resolution consumes no draws, a normalized one consumes
two. -/
noncomputable def mapElements (origin : Coord) (hour : Nat) (rng : Nat → ℚ) :
    Nat → List RawElement → List (Option Place)
  | _, [] => []
  | k, e :: rest =>
    match processElement origin hour (rng k) (rng (k + 1)) e with
    | some p => some p :: mapElements origin hour rng (k + 2) rest
    | none => none :: mapElements origin hour rng k rest

/-- The normalizer pipeline of App.js lines 118-168: name filter, the
element map, then the non-null filter; input order is preserved
throughout. -/
noncomputable def normalizePlaces (elements : List RawElement) (origin : Coord)
    (hour : Nat) (rng : Nat → ℚ) : List Place :=
  (mapElements origin hour rng 0 (elements.filter hasNameTag)).reduceOption

/-- C5: this element has a truthy name tag and direct `lat`/`lon` values
(latitude `0`, longitude `10`), so under the claim the normalizer must
keep it; the code's coordinate resolution `element.lat ||
element.center?.lat` treats the latitude `0` as absent and, with no
`center` to fall back to, discards the element — the output is empty.
The second conjunct shows the same element with latitude `20` is kept,
isolating the zero-latitude handling as the cause. -/
theorem C5_equator_element_dropped :
    normalizePlaces
        [⟨1, some 0, some 10, none,
          some ⟨some "Equator Cafe", some "cafe", none, none, none, none,
            none, none, none, none⟩⟩]
        ⟨0, 0⟩ 12 (fun _ => 0) = [] ∧
      (normalizePlaces
        [⟨1, some 20, some 10, none,
          some ⟨some "Equator Cafe", some "cafe", none, none, none, none,
            none, none, none, none⟩⟩]
        ⟨0, 0⟩ 12 (fun _ => 0)).map Place.name = ["Equator Cafe"] := by
  constructor <;> rfl

/-- The Overpass transport response: the HTTP ok flag and the `elements`
array of the decoded JSON body. -/
structure OverpassResponse where
  ok : Bool
  elements : List RawElement

/-- Outcome of one run of `searchPlacesOverpass` once the response is in
hand: `error` is the catch branch (reached because a non-ok response
throws), and `success` is normal completion carrying the normalized list
together with the empty-result classification
(`processedPlaces.length === 0`, which surfaces the no-matches message). -/
inductive SearchOutcome where
  | error (msg : String)
  | success (places : List Place) (emptyResult : Bool)

/-- Response handling of `searchPlacesOverpass` (App.js lines 112-180):
a non-ok response throws `Failed to fetch places data` (the error
outcome); otherwise the elements are normalized and the run completes as
a success, classified as an empty result exactly when no usable element
remained. -/
noncomputable def runSearch (resp : OverpassResponse) (origin : Coord) (hour : Nat)
    (rng : Nat → ℚ) : SearchOutcome :=
  if resp.ok = false then .error "Failed to fetch places data"
  else
    let processed := normalizePlaces resp.elements origin hour rng
    .success processed processed.isEmpty

/-- C2: a successful response whose elements normalize to nothing — in
particular an empty `elements` array — completes as a success carrying
the empty place list, classified as an empty result, and the error
outcome occurs exactly for a non-ok transport response. -/
theorem C2_empty_is_success (resp : OverpassResponse) (origin : Coord)
    (hour : Nat) (rng : Nat → ℚ) :
    (resp.ok = true → normalizePlaces resp.elements origin hour rng = [] →
      runSearch resp origin hour rng = .success [] true) ∧
    (resp.ok = true → resp.elements = [] →
      runSearch resp origin hour rng = .success [] true) ∧
    ((∃ msg, runSearch resp origin hour rng = .error msg) ↔ resp.ok = false) := by
  obtain ⟨ok, elements⟩ := resp
  refine ⟨?_, ?_, ?_⟩
  · intro hok hnorm
    subst hok
    simp only [runSearch]
    rw [if_neg (by simp)]
    simp [hnorm]
  · intro hok helems
    subst hok
    subst helems
    simp only [runSearch]
    rw [if_neg (by simp)]
    rfl
  · cases ok
    · simp [runSearch]
    · simp [runSearch]

/-- C2 witness: an ok response with an empty `elements` array yields the
empty-classified success outcome. -/
theorem C2_empty_is_success_witness :
    runSearch ⟨true, []⟩ ⟨0, 0⟩ 12 (fun _ => 0) = .success [] true :=
  (C2_empty_is_success ⟨true, []⟩ ⟨0, 0⟩ 12 (fun _ => 0)).2.1 rfl rfl

/-- The filter over the current places (App.js lines 188-192): drop a
place if its price level is not among the selected tiers, drop it if its
rating is below the minimum, keep it otherwise. -/
def filteredPlaces (priceFilter : List Nat) (ratingFilter : ℚ)
    (places : List Place) : List Place :=
  places.filter fun place =>
    if !(priceFilter.contains place.priceLevel) then false
    else if place.rating < ratingFilter then false
    else true

/-- C8: membership in the filtered list is exactly membership in the
input together with price-tier membership in the selected tiers and a
rating at least the minimum — nothing satisfying both predicates is
dropped and nothing failing one survives. -/
theorem C8_filter_characterization (priceFilter : List Nat) (ratingFilter : ℚ)
    (places : List Place) (p : Place) :
    p ∈ filteredPlaces priceFilter ratingFilter places ↔
      p ∈ places ∧ p.priceLevel ∈ priceFilter ∧ ratingFilter ≤ p.rating := by
  unfold filteredPlaces
  rw [List.mem_filter, and_congr_right_iff]
  intro _
  split_ifs with h1 h2
  · simp only [Bool.not_eq_true', List.contains, List.elem_eq_mem,
      decide_eq_false_iff_not] at h1
    simp [h1]
  · simp only [Bool.not_eq_true', Bool.not_eq_false, List.contains, List.elem_eq_mem,
      decide_eq_true_eq] at h1
    simp [h1, not_le.mpr h2]
  · simp only [Bool.not_eq_true', Bool.not_eq_false, List.contains, List.elem_eq_mem,
      decide_eq_true_eq] at h1
    simp [h1, not_lt.mp h2]

/-- The numeric comparator of the display sort (App.js lines 194-207): a
switch on the sort key returning a sign-bearing difference, and `0` for
an unrecognized key. -/
noncomputable def placeComparator (sortBy : String) (a b : Place) : ℝ :=
  if sortBy = "distance" then a.distance - b.distance
  else if sortBy = "rating" then (b.rating : ℝ) - (a.rating : ℝ)
  else if sortBy = "price_low" then (a.priceLevel : ℝ) - (b.priceLevel : ℝ)
  else if sortBy = "price_high" then (b.priceLevel : ℝ) - (a.priceLevel : ℝ)
  else 0

/-- The display sort `[...filteredPlaces].sort(comparator)` modelled with
a stable sort under the relation `comparator a b ≤ 0` (ECMAScript
specifies `Array.prototype.sort` as a stable sort). -/
noncomputable def sortedPlaces (sortBy : String) (l : List Place) : List Place :=
  l.insertionSort fun a b => placeComparator sortBy a b ≤ 0

/-- The comparator at key `rating` is the rating difference `b - a`. -/
theorem placeComparator_rating (a b : Place) :
    placeComparator "rating" a b = (b.rating : ℝ) - (a.rating : ℝ) := by
  unfold placeComparator
  rw [if_neg (by decide), if_pos rfl]

/-- The comparator at an unrecognized key is constantly `0`. -/
theorem placeComparator_default {key : String}
    (h : key ∉ ["distance", "rating", "price_low", "price_high"]) (a b : Place) :
    placeComparator key a b = 0 := by
  simp only [List.mem_cons, List.not_mem_nil, or_false, not_or] at h
  unfold placeComparator
  rw [if_neg h.1, if_neg h.2.1, if_neg h.2.2.1, if_neg h.2.2.2]

/-- Inserting an element of the class `p` into a list keeps the class
filter prefixed by it, when every element of the class must sort at or
after `a` anyway. -/
theorem filter_orderedInsert_of_pos {α : Type} (r : α → α → Prop) [DecidableRel r]
    (p : α → Bool) (a : α) (ha : p a = true) (hmin : ∀ b, p b = true → r a b) :
    ∀ l : List α, (l.orderedInsert r a).filter p = a :: l.filter p
  | [] => by simp [List.orderedInsert, List.filter_cons, ha]
  | b :: l => by
    by_cases hr : r a b
    · rw [List.orderedInsert, if_pos hr]
      simp [List.filter_cons, ha]
    · rw [List.orderedInsert, if_neg hr]
      have hpb : p b = false := by
        cases hpb : p b
        · rfl
        · exact absurd (hmin b hpb) hr
      simp only [List.filter_cons, hpb, Bool.false_eq_true, if_false,
        filter_orderedInsert_of_pos r p a ha hmin l]

/-- Inserting an element outside the class `p` leaves the class filter
unchanged. -/
theorem filter_orderedInsert_of_neg {α : Type} (r : α → α → Prop) [DecidableRel r]
    (p : α → Bool) (a : α) (ha : p a = false) :
    ∀ l : List α, (l.orderedInsert r a).filter p = l.filter p
  | [] => by simp [List.orderedInsert, List.filter_cons, ha]
  | b :: l => by
    by_cases hr : r a b
    · rw [List.orderedInsert, if_pos hr]
      simp [List.filter_cons, ha]
    · rw [List.orderedInsert, if_neg hr]
      simp only [List.filter_cons, filter_orderedInsert_of_neg r p a ha l]

/-- Stability of insertion sort, phrased through class filters: if any
two elements of the class `p` are related either way (they tie), sorting
does not change the class filter. -/
theorem filter_insertionSort_eq {α : Type} (r : α → α → Prop) [DecidableRel r]
    (p : α → Bool) (hlaw : ∀ a b, p a = true → p b = true → r a b) :
    ∀ l : List α, (l.insertionSort r).filter p = l.filter p
  | [] => rfl
  | a :: l => by
    rw [List.insertionSort]
    cases hpa : p a
    · rw [filter_orderedInsert_of_neg r p a hpa, filter_insertionSort_eq r p hlaw l]
      simp [List.filter_cons, hpa]
    · rw [filter_orderedInsert_of_pos r p a hpa (fun b hb => hlaw a b hpa hb),
        filter_insertionSort_eq r p hlaw l]
      simp [List.filter_cons, hpa]

/-- Sorting under a relation that always holds is the identity. -/
theorem insertionSort_of_rel_total {α : Type} (r : α → α → Prop) [DecidableRel r]
    (htot : ∀ a b, r a b) (l : List α) : l.insertionSort r = l :=
  List.Sorted.insertionSort_eq (List.pairwise_of_forall_mem_list fun a _ b _ => htot a b)

/-- C9: sorting with key `rating` permutes the list, the result is
non-increasing in rating, entries of any common rating keep their
original relative order, and an unrecognized sort key returns the list
unchanged. -/
theorem C9_rating_sort (l : List Place) :
    (sortedPlaces "rating" l).Perm l ∧
    List.Sorted (fun a b : Place => b.rating ≤ a.rating) (sortedPlaces "rating" l) ∧
    (∀ r : ℚ, (sortedPlaces "rating" l).filter (fun p => p.rating == r) =
      l.filter (fun p => p.rating == r)) ∧
    (∀ key : String, key ∉ ["distance", "rating", "price_low", "price_high"] →
      sortedPlaces key l = l) := by
  have hrel : ∀ a b : Place,
      (placeComparator "rating" a b ≤ 0) ↔ b.rating ≤ a.rating := by
    intro a b
    rw [placeComparator_rating, sub_nonpos, Rat.cast_le]
  refine ⟨List.perm_insertionSort _ l, ?_, ?_, ?_⟩
  · haveI : IsTotal Place (fun a b => placeComparator "rating" a b ≤ 0) := by
      constructor
      intro a b
      rcases le_total b.rating a.rating with h | h
      · exact Or.inl ((hrel a b).mpr h)
      · exact Or.inr ((hrel b a).mpr h)
    haveI : IsTrans Place (fun a b => placeComparator "rating" a b ≤ 0) := by
      constructor
      intro a b c hab hbc
      exact (hrel a c).mpr (le_trans ((hrel b c).mp hbc) ((hrel a b).mp hab))
    exact (List.sorted_insertionSort _ l).imp fun {a b} h => (hrel a b).mp h
  · intro r
    exact filter_insertionSort_eq _ _
      (fun a b ha hb => by
        have ha' : a.rating = r := by simpa using ha
        have hb' : b.rating = r := by simpa using hb
        rw [hrel, ha', hb']) l
  · intro key hkey
    exact insertionSort_of_rel_total _
      (fun a b => by rw [placeComparator_default hkey]) l

/-- C9 witness: the unrecognized-key identity instantiated at the key
`alphabetical` and a concrete two-place list. -/
theorem C9_rating_sort_witness :
    sortedPlaces "alphabetical"
        [⟨1, "A", "x", 4, 10, 2, 0, true, ⟨0, 0⟩, none, "Various", none, none, 1⟩,
         ⟨2, "B", "y", 5, 20, 3, 0, true, ⟨0, 0⟩, none, "Various", none, none, 2⟩] =
      [⟨1, "A", "x", 4, 10, 2, 0, true, ⟨0, 0⟩, none, "Various", none, none, 1⟩,
       ⟨2, "B", "y", 5, 20, 3, 0, true, ⟨0, 0⟩, none, "Various", none, none, 2⟩] :=
  (C9_rating_sort _).2.2.2 "alphabetical" (by decide)

/-- A store of allocated JS arrays of places: an allocation counter and
the contents of each allocated reference, to make array identity and
in-place mutation explicit. -/
structure ArrayStore where
  next : Nat
  mem : Nat → List Place

/-- Allocate a fresh array holding `v`; returns the new store and the
fresh reference. -/
def allocArray (h : ArrayStore) (v : List Place) : ArrayStore × Nat :=
  (⟨h.next + 1, fun i => if i = h.next then v else h.mem i⟩, h.next)

/-- Overwrite the contents of an existing reference — the in-place update
`Array.prototype.sort` performs on its receiver. -/
def writeArray (h : ArrayStore) (r : Nat) (v : List Place) : ArrayStore :=
  ⟨h.next, fun i => if i = r then v else h.mem i⟩

/-- The derivation of the displayed list (App.js lines 188-207) with
array identity explicit: `places.filter(...)` allocates the filtered
array, the spread `[...filteredPlaces]` allocates a copy of it, and
`.sort(...)` mutates that copy in place and evaluates to its reference. -/
noncomputable def renderListsStep (h : ArrayStore) (placesRef : Nat)
    (priceFilter : List Nat) (ratingFilter : ℚ) (sortBy : String) :
    ArrayStore × Nat :=
  let fa := allocArray h (filteredPlaces priceFilter ratingFilter (h.mem placesRef))
  let ca := allocArray fa.1 (fa.1.mem fa.2)
  let h3 := writeArray ca.1 ca.2 (sortedPlaces sortBy (ca.1.mem ca.2))
  (h3, ca.2)

/-- C10: computing the displayed list never mutates the stored places
array: after the filter, the spread copy and the in-place sort, the
places reference still holds its original contents, and the returned
reference holds the sort of the filtered list. -/
theorem C10_places_not_mutated (h : ArrayStore) (placesRef : Nat)
    (priceFilter : List Nat) (ratingFilter : ℚ) (sortBy : String)
    (halloc : placesRef < h.next) :
    ((renderListsStep h placesRef priceFilter ratingFilter sortBy).1).mem placesRef =
        h.mem placesRef ∧
      ((renderListsStep h placesRef priceFilter ratingFilter sortBy).1).mem
          ((renderListsStep h placesRef priceFilter ratingFilter sortBy).2) =
        sortedPlaces sortBy (filteredPlaces priceFilter ratingFilter (h.mem placesRef)) := by
  constructor
  · simp only [renderListsStep, allocArray, writeArray]
    rw [if_neg (by omega), if_neg (by omega), if_neg (by omega)]
  · simp [renderListsStep, allocArray, writeArray]

/-- C10 witness: the frame property instantiated on a one-reference
store. -/
theorem C10_places_not_mutated_witness :
    ((renderListsStep ⟨1, fun _ => []⟩ 0 [1, 2, 3, 4] 0 "rating").1).mem 0 =
      (⟨1, fun _ => []⟩ : ArrayStore).mem 0 :=
  (C10_places_not_mutated ⟨1, fun _ => []⟩ 0 [1, 2, 3, 4] 0 "rating" (by decide)).1

end SmartPlaces
